import Mathlib

/-!
Verification of the parallel bulk-load orchestration scripts
(`import_csv_24_processes.py`, `dbtodb.py`, `par.py`).

The Python code is shallowly embedded: pure helpers become Lean functions,
the database is modelled as explicit state (a list of named tables with
their rows, or a list of index descriptors), and the external `sqlldr`
process is modelled by the observable outcome of one invocation
(return code and the row count parsed from its log, or a timeout, or a
raised exception).  Per-statement DDL failures that the scripts catch and
ignore are modelled by a boolean oracle on the statement's target name.
-/

/-- Python `str.strip()` on the character list of a string
(drop whitespace from both ends). -/
def pyStripChars (l : List Char) : List Char :=
  ((l.dropWhile Char.isWhitespace).reverse.dropWhile Char.isWhitespace).reverse

/-- Python `str.strip()`. -/
def pyStrip (s : String) : String :=
  ⟨pyStripChars s.data⟩

/-- Helper for `pySplitChar`: accumulates the current field (reversed). -/
def pySplitCharAux (sep : Char) : List Char → List Char → List (List Char)
  | [], acc => [acc.reverse]
  | c :: cs, acc =>
    if c = sep then acc.reverse :: pySplitCharAux sep cs []
    else pySplitCharAux sep cs (c :: acc)

/-- Python `str.split(sep)` for a one-character separator; on the empty
string it returns one empty field, exactly as in Python. -/
def pySplitChar (sep : Char) (s : String) : List String :=
  (pySplitCharAux sep s.data []).map String.mk

/-- Python `str.replace(ch, '')`: deleting every occurrence of a single
character is removal by filtering. -/
def pyRemoveChar (c : Char) (s : String) : String :=
  ⟨s.data.filter (fun d => d ≠ c)⟩

/-- Python `str.isdigit()` (ASCII model): nonempty and every character a
decimal digit. -/
def pyIsdigit (s : String) : Bool :=
  !s.data.isEmpty && s.data.all Char.isDigit

/-- Python `str.lower()` (ASCII model). -/
def pyLower (s : String) : String :=
  ⟨s.data.map Char.toLower⟩

/-- Python `needle in hay` on character lists: the needle occurs as a
contiguous run at some position. -/
def pyContainsAux : List Char → List Char → Bool
  | hay, needle =>
    needle.isPrefixOf hay ||
      match hay with
      | [] => false
      | _ :: t => pyContainsAux t needle

/-- Python substring membership `needle in hay`. -/
def pyContains (hay needle : String) : Bool :=
  pyContainsAux hay.data needle.data

namespace ImportCsv

/-- Outcome of one external `sqlldr` invocation as observed by the worker:
the process completed with a return code and the optional row count that
the regex `(\d+) Rows successfully loaded` extracts from its log file
(none when the log is missing or the pattern does not match), or
`subprocess.run` raised `TimeoutExpired`, or some other exception was
raised. -/
inductive SqlldrOutcome where
  | completed (retcode : Int) (logRows : Option Nat)
  | timedOut
  | raised
deriving DecidableEq, Repr

/-- Result tuple of `load_single_file`
(`file_idx, success, rows_loaded, csv_file, staging_table`). -/
structure LoadRes where
  idx : Nat
  success : Bool
  rows : Nat
  csvFile : String
  staging : Option String
deriving DecidableEq, Repr

/-- Embeds `load_single_file` (import_csv_24_processes.py:140-227) with
`USE_STAGING_TABLES = True`: if the staging table could not be created the
unit fails with zero rows and no sink; otherwise the sqlldr outcome is
classified — success iff the return code is 0 or 2, rows taken from the
log parse (0 when absent), and a timeout or exception gives a failed
result with zero rows but still reports the created staging table. -/
def load_single_file (stagingCreated : Option String) (outcome : SqlldrOutcome)
    (idx : Nat) (csvFile : String) : LoadRes :=
  match stagingCreated with
  | none => ⟨idx, false, 0, csvFile, none⟩
  | some stg =>
    match outcome with
    | .completed rc logRows => ⟨idx, rc == 0 || rc == 2, logRows.getD 0, csvFile, some stg⟩
    | .timedOut => ⟨idx, false, 0, csvFile, some stg⟩
    | .raised => ⟨idx, false, 0, csvFile, some stg⟩

/-- Embeds `get_csv_header` (import_csv_24_processes.py:44-52): strip the
first line, split on commas; it is a header (the fields are returned) iff
the first field, after deleting every `.` and `-`, is not a nonempty
digit string.  Python's `split` never returns an empty list, so the
`parts and` guard only tests the digit condition. -/
def get_csv_header (firstLine : String) : Option (List String) :=
  let parts := pySplitChar ',' (pyStrip firstLine)
  match parts with
  | [] => none
  | p :: _ =>
    if pyIsdigit (pyRemoveChar '-' (pyRemoveChar '.' p)) then none
    else some parts

end ImportCsv

namespace DbToDb

/-- Embeds `run_sqlldr` (dbtodb.py:398-455): the chunk is a success iff
the loader's return code is 0 or 2; the loaded-row count is the number
parsed from the log (0 when absent); `TimeoutExpired` or any other
exception gives `(False, 0)`. -/
def run_sqlldr (outcome : ImportCsv.SqlldrOutcome) : Bool × Nat :=
  match outcome with
  | .completed rc logRows => (rc == 0 || rc == 2, logRows.getD 0)
  | .timedOut => (false, 0)
  | .raised => (false, 0)

end DbToDb

namespace DbToDb

/-- Embeds the writing loop of `split_csv` (dbtodb.py:324-357) at the
level of the data lines: each chunk receives `lines_per_chunk` lines
(the loop appends a line before testing the threshold, so a chunk always
receives at least one line), and the final partial chunk receives the
remainder. -/
def chunkify (s : Nat) : List α → List (List α)
  | [] => []
  | x :: xs => (x :: xs).take (max 1 s) :: chunkify s ((x :: xs).drop (max 1 s))
termination_by l => l.length
decreasing_by simp only [List.length_drop, List.length_cons]; omega

/-- Arithmetic mirror of `chunkify`: the sizes of the produced chunks as
a function of the data-line count. -/
def chunkSizes (s : Nat) (total : Nat) : List Nat :=
  if total = 0 then []
  else min (max 1 s) total :: chunkSizes s (total - max 1 s)
termination_by total
decreasing_by omega

/-- Embeds `lines_per_chunk = (total_lines + num_chunks - 1) // num_chunks`
(dbtodb.py:327), the ceiling division used by `split_csv`. -/
def lines_per_chunk (total_lines num_chunks : Nat) : Nat :=
  (total_lines + num_chunks - 1) / num_chunks

/-- Embeds `split_csv` (dbtodb.py:324-357).  The input file is its header
line followed by the data lines (`count_csv_lines` is the file's line
count minus one, i.e. the number of data lines).  Returns the chunk files
(each a list of lines) and the header columns
`header.strip().split(',')`. -/
def split_csv (num_chunks : Nat) (header : String) (dataLines : List String) :
    List (List String) × List String :=
  (chunkify (lines_per_chunk dataLines.length num_chunks) dataLines,
   pySplitChar ',' (pyStrip header))

/-- The chunk sizes `split_csv` produces for a file with `total` data
lines split into `num_chunks` chunks. -/
def split_sizes (total num_chunks : Nat) : List Nat :=
  chunkSizes (lines_per_chunk total num_chunks) total

end DbToDb

namespace Par

/-- Embeds the part-range computation of `main` (par.py:219-226):
`part_size = (total_partitions + 3) // 4`, and for `i = 0..3` the range
`[i*part_size, min((i+1)*part_size, total))`, kept only when its start is
below `total`. -/
def part_ranges (total : Nat) : List (Nat × Nat) :=
  let part_size := (total + 3) / 4
  (List.range 4).filterMap (fun i =>
    if i * part_size < total then some (i * part_size, min ((i + 1) * part_size) total)
    else none)

end Par

namespace ImportCsv

/-- Index status as recorded in `all_indexes.status`. -/
inductive IdxStatus where
  | usable
  | unusable
deriving DecidableEq, Repr

/-- One row of the `get_table_indexes` query: index name, whether
`uniqueness = 'UNIQUE'`, and the current status. -/
structure IdxDesc where
  name : String
  unique : Bool
  status : IdxStatus
deriving DecidableEq, Repr

/-- Embeds `disable_indexes` (import_csv_24_processes.py:287-329): the
indexes are partitioned into unique and non-unique; only the non-unique
ones get `ALTER INDEX ... UNUSABLE`, each attempt succeeding iff the
`alterOk` oracle allows it (the script catches and logs per-index
failures); the successfully disabled `(name, uniqueness)` pairs are
returned.  Unique indexes are never touched. -/
def disable_indexes (alterOk : String → Bool) (idxs : List IdxDesc) :
    List IdxDesc × List (String × Bool) :=
  if idxs.isEmpty then (idxs, [])
  else
    let nonunique := idxs.filter (fun d => !d.unique)
    if nonunique.isEmpty then (idxs, [])
    else
      (idxs.map (fun d =>
        if !d.unique && alterOk d.name then { d with status := .unusable } else d),
       (nonunique.filter (fun d => alterOk d.name)).map (fun d => (d.name, d.unique)))

end ImportCsv

namespace DbToDb

/-- Embeds `disable_indexes` (dbtodb.py:259-284): every index returned by
`get_table_indexes` — unique or not — gets `ALTER INDEX ... UNUSABLE`,
each attempt succeeding iff the `alterOk` oracle allows it; the
successfully disabled pairs are returned. -/
def disable_indexes (alterOk : String → Bool) (idxs : List ImportCsv.IdxDesc) :
    List ImportCsv.IdxDesc × List (String × Bool) :=
  if idxs.isEmpty then (idxs, [])
  else
    (idxs.map (fun d =>
      if alterOk d.name then { d with status := .unusable } else d),
     (idxs.filter (fun d => alterOk d.name)).map (fun d => (d.name, d.unique)))

end DbToDb

/-- Little-endian decimal digits of a natural number as characters,
mirroring how Python renders a nonzero integer in base 10. -/
def decCharsRev : Nat → List Char
  | 0 => []
  | n + 1 => Char.ofNat (48 + (n + 1) % 10) :: decCharsRev ((n + 1) / 10)
termination_by n => n
decreasing_by omega

/-- Python `str(n)` for a natural number, as a character list. -/
def pyDecRepr (n : Nat) : List Char :=
  if n = 0 then ['0'] else (decCharsRev n).reverse

/-- Python format `f-string` field `{n:02d}`: the decimal rendering,
zero-padded on the left to width 2. -/
def pyFormat02d (n : Nat) : List Char :=
  if (pyDecRepr n).length < 2 then '0' :: pyDecRepr n else pyDecRepr n

namespace ImportCsv

/-- The deterministic staging-table name
`f"{table_name}_STG{chunk_id:02d}"` (import_csv_24_processes.py:361). -/
def staging_name (table : String) (chunk_id : Nat) : String :=
  table ++ "_STG" ++ ⟨pyFormat02d chunk_id⟩

/-- The destination database's tables, modelled as named row lists. -/
abbrev Db (α : Type) : Type := List (String × List α)

/-- Embeds `create_staging_table` (import_csv_24_processes.py:359-384) on
its success path: drop any existing table of the derived staging name
(errors from dropping a non-existent table are swallowed), then create an
empty structure-copy under that name; the name is returned. -/
def create_staging_table (table : String) (chunk_id : Nat) (db : Db α) :
    Db α × String :=
  let name := staging_name table chunk_id
  ((db.filter (fun e => e.1 != name)) ++ [(name, ([] : List α))], name)

/-- Embeds `merge_staging_tables` (import_csv_24_processes.py:386-426):
the staging tables are processed one at a time in list order; for each,
`INSERT /*+ APPEND */ INTO target SELECT * FROM stg` either succeeds
(per the `mergeOk` oracle) — in which case exactly that table's rows are
appended and committed, and the merge counter and running row total are
advanced — or raises, in which case that single insert is rolled back
(the committed state is untouched) and the loop continues.  Returns
`(merge_count, total_rows, committed target rows)`. -/
def merge_staging_tables (mergeOk : String → Bool) (rowsOf : String → List α)
    (target : List α) (stagingTables : List String) : Nat × Nat × List α :=
  stagingTables.foldl
    (fun st stg =>
      if mergeOk stg then (st.1 + 1, st.2.1 + (rowsOf stg).length, st.2.2 ++ rowsOf stg)
      else st)
    (0, 0, target)

/-- Embeds `drop_staging_tables` (import_csv_24_processes.py:428-444):
every table in the given list is dropped (per-table errors are
swallowed); there is no success flag and nothing is preserved. -/
def drop_staging_tables (stagingTables : List String) (db : Db α) : Db α :=
  db.filter (fun e => !stagingTables.contains e.1)

/-- Embeds the result collection of `main`
(import_csv_24_processes.py:573-576): the staging tables passed on to the
merge phase are exactly those of units whose load succeeded (a `None`
sink is filtered out by Python truthiness). -/
def staging_tables (results : List LoadRes) : List String :=
  results.filterMap (fun r => if r.success then r.staging else none)

/-- Embeds `failed_files = [r[3] for r in results if not r[1]]`
(import_csv_24_processes.py:575): the source files of the failed units,
listed in the final summary. -/
def failed_files (results : List LoadRes) : List String :=
  (results.filter (fun r => !r.success)).map (fun r => r.csvFile)

/-- Embeds `total_rows = sum(r[2] for r in results)`
(import_csv_24_processes.py:573). -/
def total_rows_loaded (results : List LoadRes) : Nat :=
  (results.map (fun r => r.rows)).sum

/-- Embeds the merge phase of `main` (import_csv_24_processes.py:583-596):
`merge_staging_tables` is run on exactly the successful units' staging
tables. -/
def main_merge (mergeOk : String → Bool) (rowsOf : String → List α)
    (target : List α) (results : List LoadRes) : Nat × Nat × List α :=
  merge_staging_tables mergeOk rowsOf target (staging_tables results)

/-- Embeds the cleanup call `drop_staging_tables(staging_tables)` of
`main` (import_csv_24_processes.py:596): the tables dropped after the
merge phase are the full `staging_tables` list, independent of how each
individual merge fared. -/
def main_dropped_tables (results : List LoadRes) : List String :=
  staging_tables results

/-- Embeds the CSV-file scan of `main`
(import_csv_24_processes.py:493-500): a file is excluded when its
basename, lowercased, contains `_chunk`, or its basename contains `_STG`
verbatim; the survivors are sorted. -/
def excluded_file (basename : String) : Bool :=
  pyContains (pyLower basename) "_chunk" || pyContains basename "_STG"

/-- The ordered list of CSV files `main` goes on to load. -/
def csv_files_to_load (basenames : List String) : List String :=
  (basenames.filter (fun f => !excluded_file f)).mergeSort
    (fun a b => decide (a ≤ b))

end ImportCsv

/-- Reads a big-endian character list back as a decimal number; the left
inverse of the zero-padded rendering, used to prove staging names
collision-free. -/
def parseNum (l : List Char) : Nat :=
  l.foldl (fun acc c => acc * 10 + (c.toNat - 48)) 0

/-- Helper for `specNumericLiteral`: a decimal literal body — digits with
at most one decimal point and at least one digit overall. -/
def specNumericBody (body : List Char) : Bool :=
  let d1 := body.takeWhile Char.isDigit
  match body.dropWhile Char.isDigit with
  | [] => !d1.isEmpty
  | '.' :: d2 => (!d1.isEmpty || !d2.isEmpty) && d2.all Char.isDigit
  | _ => false

/-- Modelled from the spec: the spec's side of the header heuristic —
"a line is a header if its first field is not parseable as a number" —
needs a notion of "parseable as a number" that the source never defines;
this follows the spec's words: an optional leading minus sign followed by
a plain decimal literal (digits with at most one decimal point and at
least one digit), i.e. the strings Python's number parsing accepts in
plain decimal notation. -/
def specNumericLiteral (s : String) : Bool :=
  if s.data.head? = some '-' then specNumericBody s.data.tail
  else specNumericBody s.data


namespace DbToDb

theorem chunkSizes_zero (s : Nat) : chunkSizes s 0 = [] := by
  rw [chunkSizes]
  simp

theorem chunkSizes_pos (s total : Nat) (h : 0 < total) :
    chunkSizes s total = min (max 1 s) total :: chunkSizes s (total - max 1 s) := by
  rw [chunkSizes]
  simp [Nat.pos_iff_ne_zero.mp h]

theorem chunkify_flatten (s : Nat) : ∀ l : List α, (chunkify s l).flatten = l := by
  have key : ∀ (n : Nat) (l : List α), l.length ≤ n → (chunkify s l).flatten = l := by
    intro n
    induction n with
    | zero =>
      intro l hl
      have : l = [] := List.eq_nil_of_length_eq_zero (Nat.le_zero.mp hl)
      subst this
      rw [chunkify]
      rfl
    | succ n ih =>
      intro l hl
      match l with
      | [] => rw [chunkify]; rfl
      | x :: xs =>
        rw [chunkify]
        have hdrop : ((x :: xs).drop (max 1 s)).length ≤ n := by
          simp only [List.length_drop, List.length_cons]
          simp only [List.length_cons] at hl
          omega
        rw [List.flatten_cons, ih _ hdrop, List.take_append_drop]
  intro l
  exact key l.length l le_rfl

theorem chunkify_sizes (s : Nat) :
    ∀ l : List α, (chunkify s l).map List.length = chunkSizes s l.length := by
  have key : ∀ (n : Nat) (l : List α), l.length ≤ n →
      (chunkify s l).map List.length = chunkSizes s l.length := by
    intro n
    induction n with
    | zero =>
      intro l hl
      have : l = [] := List.eq_nil_of_length_eq_zero (Nat.le_zero.mp hl)
      subst this
      rw [chunkify]
      simp [chunkSizes_zero]
    | succ n ih =>
      intro l hl
      match l with
      | [] => rw [chunkify]; simp [chunkSizes_zero]
      | x :: xs =>
        rw [chunkify, chunkSizes_pos _ _ (by simp)]
        have hdrop : ((x :: xs).drop (max 1 s)).length ≤ n := by
          simp only [List.length_drop, List.length_cons]
          simp only [List.length_cons] at hl
          omega
        rw [List.map_cons, ih _ hdrop]
        simp [List.length_take, Nat.min_comm]
  intro l
  exact key l.length l le_rfl

theorem chunkSizes_sum (s : Nat) : ∀ total : Nat, (chunkSizes s total).sum = total := by
  intro total
  induction total using Nat.strong_induction_on with
  | _ total ih =>
    rcases Nat.eq_zero_or_pos total with h | h
    · subst h; rw [chunkSizes_zero]; rfl
    · rw [chunkSizes_pos _ _ h, List.sum_cons, ih _ (by omega)]
      omega

theorem chunkSizes_length_le (s : Nat) (hs : 1 ≤ s) :
    ∀ K total : Nat, total ≤ K * s → (chunkSizes s total).length ≤ K := by
  intro K
  induction K with
  | zero =>
    intro total h
    have : total = 0 := by omega
    subst this
    rw [chunkSizes_zero]
    simp
  | succ K ih =>
    intro total h
    rcases Nat.eq_zero_or_pos total with h0 | h0
    · subst h0; rw [chunkSizes_zero]; simp
    · rw [chunkSizes_pos _ _ h0, List.length_cons]
      have hmax : max 1 s = s := Nat.max_eq_right hs
      rw [hmax]
      refine Nat.succ_le_succ (ih (total - s) ?_)
      rw [Nat.succ_mul] at h
      omega

theorem le_mul_ceil (total K : Nat) (hK : 0 < K) :
    total ≤ K * ((total + K - 1) / K) := by
  rw [← Nat.ceilDiv_eq_add_pred_div]
  have h : total ≤ K • (total ⌈/⌉ K) := le_smul_ceilDiv hK
  simpa [smul_eq_mul] using h

theorem split_csv_sizes (K : Nat) (header : String) (dataLines : List String) :
    ((split_csv K header dataLines).1.map List.length) =
      split_sizes dataLines.length K :=
  chunkify_sizes _ _

end DbToDb

theorem Par.mem_part_ranges (total : Nat) (r : Nat × Nat) :
    r ∈ Par.part_ranges total ↔
      ∃ i, i < 4 ∧ i * ((total + 3) / 4) < total ∧
        r = (i * ((total + 3) / 4), min ((i + 1) * ((total + 3) / 4)) total) := by
  simp only [Par.part_ranges, List.mem_filterMap, List.mem_range]
  constructor
  · rintro ⟨i, hi, hf⟩
    rcases Nat.lt_or_ge (i * ((total + 3) / 4)) total with hlt | hge
    · rw [if_pos hlt] at hf
      exact ⟨i, hi, hlt, (Option.some.inj hf).symm⟩
    · rw [if_neg (by omega)] at hf
      exact absurd hf (by simp)
  · rintro ⟨i, hi, hlt, rfl⟩
    exact ⟨i, hi, by rw [if_pos hlt]⟩

theorem Par.part_ranges_length_le (total : Nat) : (Par.part_ranges total).length ≤ 4 := by
  simp only [Par.part_ranges]
  calc (List.filterMap _ (List.range 4)).length
      ≤ (List.range 4).length := List.length_filterMap_le _ _
    _ = 4 := List.length_range 4

theorem Par.part_ranges_bounds (total : Nat) :
    ∀ r ∈ Par.part_ranges total, r.1 < r.2 ∧ r.2 ≤ total := by
  intro r hr
  rw [Par.mem_part_ranges] at hr
  obtain ⟨i, hi4, hlt, rfl⟩ := hr
  have htot : 0 < total := lt_of_le_of_lt (Nat.zero_le _) hlt
  have hps : 0 < (total + 3) / 4 := by
    show 1 ≤ (total + 3) / 4
    rw [Nat.one_le_div_iff (by norm_num)]
    omega
  exact ⟨lt_min ((Nat.mul_lt_mul_right hps).mpr (Nat.lt_succ_self i)) hlt,
    min_le_right _ _⟩

theorem Par.part_ranges_cover (total : Nat) :
    ∀ k, k < total → ∃ r ∈ Par.part_ranges total, r.1 ≤ k ∧ k < r.2 := by
  intro k hk
  have htot : 0 < total := lt_of_le_of_lt (Nat.zero_le k) hk
  have hps : 0 < (total + 3) / 4 := by
    show 1 ≤ (total + 3) / 4
    rw [Nat.one_le_div_iff (by norm_num)]
    omega
  set ps := (total + 3) / 4 with hpsdef
  refine ⟨(k / ps * ps, min ((k / ps + 1) * ps) total), ?_, Nat.div_mul_le_self k ps, ?_⟩
  · rw [Par.mem_part_ranges]
    refine ⟨k / ps, ?_, lt_of_le_of_lt (Nat.div_mul_le_self k ps) hk, rfl⟩
    have h4 : total ≤ 4 * ps := by
      have h := DbToDb.le_mul_ceil total 4 (by norm_num)
      have h43 : total + 4 - 1 = total + 3 := by omega
      rw [h43] at h
      exact h
    exact (Nat.div_lt_iff_lt_mul hps).mpr (lt_of_lt_of_le hk h4)
  · have h := Nat.lt_mul_div_succ k hps
    rw [Nat.mul_comm] at h
    exact lt_min h hk

theorem Par.part_ranges_chain (total : Nat) :
    (Par.part_ranges total).Pairwise (fun r s => r.2 ≤ s.1) := by
  simp only [Par.part_ranges]
  refine List.Pairwise.filterMap _ ?_ (List.pairwise_lt_range 4)
  intro a b hab x hx y hy
  revert hx
  split
  · intro hx
    rw [Option.mem_def] at hx
    obtain rfl := Option.some.inj hx
    revert hy
    split
    · intro hy
      rw [Option.mem_def] at hy
      obtain rfl := Option.some.inj hy
      exact le_trans (min_le_left _ _) (Nat.mul_le_mul_right _ hab)
    · intro hy
      exact absurd hy (by simp)
  · intro hx
    exact absurd hx (by simp)

/-- C2 counterexample: the claim promises exactly `K` work units for every
dataset and every `K ≥ 1`, but a CSV file with 5 data rows split into
`K = 4` chunks yields `ceil(5/4) = 2` lines per chunk and therefore only
3 chunk files, and `par.py` bucketing 5 partitions into 4 parts likewise
yields only 3 part ranges. -/
theorem c2_counterexample :
    (DbToDb.split_csv 4 "H" ["r1", "r2", "r3", "r4", "r5"]).1.length ≠ 4
    ∧ (Par.part_ranges 5).length ≠ 4 := by
  constructor
  · norm_num [DbToDb.split_csv, DbToDb.lines_per_chunk, DbToDb.chunkify]
  · decide

/-- C2 (amended): for every dataset — a CSV file (header plus data
lines) with `split_csv`, or an ordered partition list with `par.py`'s
4-way bucketing — the planner returns an ordered list of at most `K`
work units (possibly fewer than `K`) whose source ranges are pairwise
disjoint and jointly exhaustive, with no row duplicated or dropped at
any boundary.  For `split_csv` with `K ≥ 1` the concatenation of the
chunks is exactly the data-line list and the chunk sizes sum to the
total data-row count exactly; for `part_ranges` over `total` partitions
there are at most 4 parts, every part range is nonempty and lies within
the partition list, every partition index belongs to some part, and the
parts appear in order with each range ending no later than the next one
starts (pairwise disjoint). -/
theorem c2_split_amended (K : Nat) (hK : 1 ≤ K) (header : String)
    (dataLines : List String) (total : Nat) :
    (DbToDb.split_csv K header dataLines).1.flatten = dataLines
    ∧ ((DbToDb.split_csv K header dataLines).1.map List.length).sum = dataLines.length
    ∧ (DbToDb.split_csv K header dataLines).1.length ≤ K
    ∧ (Par.part_ranges total).length ≤ 4
    ∧ (∀ r ∈ Par.part_ranges total, r.1 < r.2 ∧ r.2 ≤ total)
    ∧ (∀ k, k < total → ∃ r ∈ Par.part_ranges total, r.1 ≤ k ∧ k < r.2)
    ∧ (Par.part_ranges total).Pairwise (fun r s => r.2 ≤ s.1) := by
  refine ⟨DbToDb.chunkify_flatten _ _, ?_, ?_, Par.part_ranges_length_le total,
    Par.part_ranges_bounds total, Par.part_ranges_cover total,
    Par.part_ranges_chain total⟩
  · rw [DbToDb.split_csv_sizes, DbToDb.split_sizes, DbToDb.chunkSizes_sum]
  · have hlen : (DbToDb.split_csv K header dataLines).1.length =
        (DbToDb.split_sizes dataLines.length K).length := by
      rw [← DbToDb.split_csv_sizes K header dataLines, List.length_map]
    rw [hlen]
    rcases Nat.eq_zero_or_pos dataLines.length with h0 | h0
    · rw [DbToDb.split_sizes, h0, DbToDb.chunkSizes_zero]
      simp
    · refine DbToDb.chunkSizes_length_le _ ?_ K _ (DbToDb.le_mul_ceil _ _ hK)
      rw [DbToDb.lines_per_chunk, Nat.one_le_div_iff hK]
      omega

/-- C2 witness: a concrete run of the amended statement — 5 data rows,
`K = 3`, chunk sizes `[2, 2, 1]`, and a partition list of 5 partitions
bucketed into at most 4 parts that cover index 4. -/
theorem c2_split_amended_witness :
    ((DbToDb.split_csv 3 "H" ["r1", "r2", "r3", "r4", "r5"]).1.flatten =
        ["r1", "r2", "r3", "r4", "r5"]
    ∧ ((DbToDb.split_csv 3 "H" ["r1", "r2", "r3", "r4", "r5"]).1.map List.length).sum = 5
    ∧ (DbToDb.split_csv 3 "H" ["r1", "r2", "r3", "r4", "r5"]).1.length ≤ 3)
    ∧ (Par.part_ranges 5).length ≤ 4
    ∧ (∃ r ∈ Par.part_ranges 5, r.1 ≤ 4 ∧ 4 < r.2)
    ∧ (Par.part_ranges 5).Pairwise (fun r s => r.2 ≤ s.1) := by
  have h := c2_split_amended 3 (by norm_num) "H" ["r1", "r2", "r3", "r4", "r5"] 5
  exact ⟨by simpa using ⟨h.1, h.2.1, h.2.2.1⟩, h.2.2.2.1,
    h.2.2.2.2.2.1 4 (by norm_num), h.2.2.2.2.2.2⟩

/-- C3 counterexample: the claim fixes the unit sizes for 10,000,001 rows
and `K = 4` as `[2500001, 2500000, 2500000, 2500000]` (remainder carried
by the first unit), but the splitter gives every chunk
`ceil(total/K) = 2500001` lines, the last chunk absorbing only what is
left, namely `[2500001, 2500001, 2500001, 2499998]`. -/
theorem c3_counterexample :
    DbToDb.split_sizes 10000001 4 ≠ [2500001, 2500000, 2500000, 2500000] := by
  norm_num [DbToDb.split_sizes, DbToDb.lines_per_chunk, DbToDb.chunkSizes_pos,
    DbToDb.chunkSizes_zero]

/-- C1 counterexample: `dbtodb.py`'s `disable_indexes` issues
`ALTER INDEX ... UNUSABLE` for every index of the table, the unique ones
included: a table carrying a single unique, usable index ends up with
that unique index in the `Unusable` state (and reported in the disabled
list), refuting "never changes the status of a unique index". -/
theorem c1_counterexample :
    (DbToDb.disable_indexes (fun _ => true)
        [⟨"U_PK", true, ImportCsv.IdxStatus.usable⟩]).1 =
      [⟨"U_PK", true, ImportCsv.IdxStatus.unusable⟩]
    ∧ (DbToDb.disable_indexes (fun _ => true)
        [⟨"U_PK", true, ImportCsv.IdxStatus.usable⟩]).2 = [("U_PK", true)] := by
  constructor <;> rfl

/-- C1 (amended): `import_csv_24_processes.py`'s `disable_indexes`
behaves as the claim says — it partitions the indexes into unique and
non-unique, leaves every unique index's descriptor (status included)
untouched at its position, marks exactly the non-unique ones whose ALTER
succeeds as unusable, and reports only non-unique indexes as disabled.
`dbtodb.py`'s `disable_indexes`, by contrast, marks every index whose
ALTER succeeds — unique or not — as unusable. -/
theorem c1_suspend_amended (alterOk : String → Bool) (idxs : List ImportCsv.IdxDesc) :
    ((ImportCsv.disable_indexes alterOk idxs).1.length = idxs.length)
    ∧ (∀ (i : Nat) (d : ImportCsv.IdxDesc), idxs[i]? = some d → d.unique = true →
        (ImportCsv.disable_indexes alterOk idxs).1[i]? = some d)
    ∧ (∀ (i : Nat) (d : ImportCsv.IdxDesc), idxs[i]? = some d → d.unique = false →
        alterOk d.name = true →
        (ImportCsv.disable_indexes alterOk idxs).1[i]? =
          some { d with status := ImportCsv.IdxStatus.unusable })
    ∧ (∀ p ∈ (ImportCsv.disable_indexes alterOk idxs).2, p.2 = false)
    ∧ (∀ (i : Nat) (d : ImportCsv.IdxDesc), idxs[i]? = some d → alterOk d.name = true →
        (DbToDb.disable_indexes alterOk idxs).1[i]? =
          some { d with status := ImportCsv.IdxStatus.unusable }) := by
  refine ⟨?_, ?_, ?_, ?_, ?_⟩
  · rw [ImportCsv.disable_indexes]
    split
    · rfl
    · dsimp only
      split
      · rfl
      · simp
  · intro i d hd hu
    rw [ImportCsv.disable_indexes]
    split
    · exact hd
    · dsimp only
      split
      · exact hd
      · simp [List.getElem?_map, hd, hu]
  · intro i d hd hu ha
    rw [ImportCsv.disable_indexes]
    split
    · rename_i hemp
      rw [List.isEmpty_iff] at hemp
      subst hemp
      simp at hd
    · dsimp only
      split
      · rename_i hemp
        rw [List.isEmpty_iff, List.filter_eq_nil_iff] at hemp
        have hmem : d ∈ idxs := List.getElem?_mem hd
        have := hemp d hmem
        simp [hu] at this
      · simp [List.getElem?_map, hd, hu, ha]
  · intro p hp
    rw [ImportCsv.disable_indexes] at hp
    revert hp
    split
    · intro hp; simp at hp
    · dsimp only
      split
      · intro hp; simp at hp
      · intro hp
        simp only [List.mem_map, List.mem_filter] at hp
        obtain ⟨d, ⟨hdmem, hdalter⟩, rfl⟩ := hp
        simpa using hdmem.2
  · intro i d hd ha
    rw [DbToDb.disable_indexes]
    split
    · rename_i hemp
      rw [List.isEmpty_iff] at hemp
      subst hemp
      simp at hd
    · dsimp only
      simp [List.getElem?_map, hd, ha]

/-- C1 witness: a table with one unique and one non-unique index, every
ALTER succeeding — the unique index keeps its `usable` status, the
non-unique one becomes `unusable`, and only the non-unique one is
reported disabled. -/
theorem c1_suspend_amended_witness :
    (ImportCsv.disable_indexes (fun _ => true)
        [⟨"U_PK", true, ImportCsv.IdxStatus.usable⟩,
         ⟨"N_IX", false, ImportCsv.IdxStatus.usable⟩]).1[0]? =
      some ⟨"U_PK", true, ImportCsv.IdxStatus.usable⟩
    ∧ (ImportCsv.disable_indexes (fun _ => true)
        [⟨"U_PK", true, ImportCsv.IdxStatus.usable⟩,
         ⟨"N_IX", false, ImportCsv.IdxStatus.usable⟩]).1[1]? =
      some ⟨"N_IX", false, ImportCsv.IdxStatus.unusable⟩ := by
  have h := c1_suspend_amended (fun _ => true)
    [⟨"U_PK", true, ImportCsv.IdxStatus.usable⟩,
     ⟨"N_IX", false, ImportCsv.IdxStatus.usable⟩]
  exact ⟨h.2.1 0 _ rfl rfl, h.2.2.1 1 _ rfl rfl rfl⟩

/-- C3 (amended): splitting 10,000,000 data rows into `K = 4` yields the
unit sizes `[2500000, 2500000, 2500000, 2500000]`, and splitting
10,000,001 rows yields `[2500001, 2500001, 2500001, 2499998]`: every
chunk except the last gets exactly `ceil(total/K)` rows — chunk
boundaries `[i*size, (i+1)*size)` — and the last chunk absorbs the
remainder, so the sizes still sum to the exact totals. -/
theorem c3_sizes_amended :
    DbToDb.split_sizes 10000000 4 = [2500000, 2500000, 2500000, 2500000]
    ∧ DbToDb.split_sizes 10000001 4 = [2500001, 2500001, 2500001, 2499998]
    ∧ (DbToDb.split_sizes 10000000 4).sum = 10000000
    ∧ (DbToDb.split_sizes 10000001 4).sum = 10000001 := by
  refine ⟨?_, ?_, DbToDb.chunkSizes_sum _ _, DbToDb.chunkSizes_sum _ _⟩ <;>
    norm_num [DbToDb.split_sizes, DbToDb.lines_per_chunk, DbToDb.chunkSizes_pos,
      DbToDb.chunkSizes_zero]

namespace ImportCsv

theorem merge_foldl (mergeOk : String → Bool) (rowsOf : String → List α) :
    ∀ (ts : List String) (c t : Nat) (tgt : List α),
      ts.foldl
          (fun st stg =>
            if mergeOk stg then
              (st.1 + 1, st.2.1 + (rowsOf stg).length, st.2.2 ++ rowsOf stg)
            else st)
          (c, t, tgt) =
        (c + (ts.filter mergeOk).length,
         t + ((ts.filter mergeOk).map (fun x => (rowsOf x).length)).sum,
         tgt ++ ((ts.filter mergeOk).map rowsOf).flatten) := by
  intro ts
  induction ts with
  | nil => intro c t tgt; simp
  | cons s ts ih =>
    intro c t tgt
    by_cases hs : mergeOk s
    · simp only [List.foldl_cons, hs, if_pos, List.filter_cons_of_pos hs, List.map_cons,
        List.length_cons, List.sum_cons, List.flatten_cons, ih]
      refine congrArg₂ _ (by omega) (congrArg₂ _ (by omega) ?_)
      rw [List.append_assoc]
    · simp only [List.foldl_cons, hs, if_neg, Bool.false_eq_true, not_false_iff,
        List.filter_cons_of_neg hs, ih]

theorem merge_staging_tables_eq (mergeOk : String → Bool) (rowsOf : String → List α)
    (target : List α) (ts : List String) :
    merge_staging_tables mergeOk rowsOf target ts =
      ((ts.filter mergeOk).length,
       ((ts.filter mergeOk).map (fun x => (rowsOf x).length)).sum,
       target ++ ((ts.filter mergeOk).map rowsOf).flatten) := by
  rw [merge_staging_tables, merge_foldl]
  simp

end ImportCsv

/-- C4: the merge coordinator processes the staging sinks one at a time
in list order — after the first `n` sinks the committed target holds the
original rows followed by exactly the rows of the successfully merged
sinks among those `n`, in order, so each sink's rows are committed before
the next sink starts — and a sink whose insert fails is rolled back alone
(the whole run is observationally the run without that sink: every other
sink still merges, the failed one's rows never reach the target) while
merging continues with the remaining sinks.  The merge counter and row
total likewise count exactly the successfully merged sinks. -/
theorem c4_merge_sequential (mergeOk : String → Bool) (rowsOf : String → List Nat)
    (target : List Nat) (ts pre post : List String) (s : String) :
    ((ImportCsv.merge_staging_tables mergeOk rowsOf target ts).2.2 =
      target ++ ((ts.filter mergeOk).map rowsOf).flatten)
    ∧ (∀ n, (ImportCsv.merge_staging_tables mergeOk rowsOf target (ts.take n)).2.2 =
        target ++ (((ts.take n).filter mergeOk).map rowsOf).flatten)
    ∧ ((ImportCsv.merge_staging_tables mergeOk rowsOf target ts).1 =
        (ts.filter mergeOk).length)
    ∧ ((ImportCsv.merge_staging_tables mergeOk rowsOf target ts).2.1 =
        ((ts.filter mergeOk).map (fun x => (rowsOf x).length)).sum)
    ∧ (mergeOk s = false →
        ImportCsv.merge_staging_tables mergeOk rowsOf target (pre ++ s :: post) =
          ImportCsv.merge_staging_tables mergeOk rowsOf target (pre ++ post)) := by
  refine ⟨?_, ?_, ?_, ?_, ?_⟩
  · rw [ImportCsv.merge_staging_tables_eq]
  · intro n
    rw [ImportCsv.merge_staging_tables_eq]
  · rw [ImportCsv.merge_staging_tables_eq]
  · rw [ImportCsv.merge_staging_tables_eq]
  · intro hs
    rw [ImportCsv.merge_staging_tables_eq, ImportCsv.merge_staging_tables_eq,
      List.filter_append, List.filter_append, List.filter_cons_of_neg (by simp [hs])]

/-- C4 witness: three sinks where the middle one fails its merge — the
final target carries sink A's rows then sink C's rows, two sinks are
counted as merged, and the run equals the run without the failing
sink. -/
theorem c4_merge_sequential_witness :
    ((ImportCsv.merge_staging_tables (fun x => x != "B") (fun x => if x == "A" then [1] else [2, 3])
        [9] ["A", "B", "C"]).2.2 = [9, 1, 2, 3])
    ∧ ((ImportCsv.merge_staging_tables (fun x => x != "B") (fun x => if x == "A" then [1] else [2, 3])
        [9] ["A", "B", "C"]).1 = 2)
    ∧ (ImportCsv.merge_staging_tables (fun x => x != "B") (fun x => if x == "A" then [1] else [2, 3])
        [9] (["A"] ++ "B" :: ["C"]) =
      ImportCsv.merge_staging_tables (fun x => x != "B") (fun x => if x == "A" then [1] else [2, 3])
        [9] (["A"] ++ ["C"])) := by
  refine ⟨?_, ?_,
    (c4_merge_sequential (fun x => x != "B") (fun x => if x == "A" then [1] else [2, 3])
      [9] [] ["A"] ["C"] "B").2.2.2.2 (by decide)⟩
  · exact (c4_merge_sequential (fun x => x != "B") (fun x => if x == "A" then [1] else [2, 3])
      [9] ["A", "B", "C"] [] [] "B").1.trans (by decide)
  · exact (c4_merge_sequential (fun x => x != "B") (fun x => if x == "A" then [1] else [2, 3])
      [9] ["A", "B", "C"] [] [] "B").2.2.1.trans (by decide)

namespace ImportCsv

theorem staging_tables_sum (g : String → Nat) :
    ∀ results : List LoadRes,
      ((staging_tables results).map g).sum =
        (results.map (fun x => if x.success then x.staging.elim 0 g else 0)).sum := by
  intro results
  induction results with
  | nil => rfl
  | cons x rs ih =>
    by_cases hs : x.success
    · match hstg : x.staging with
      | none => simp [staging_tables, List.filterMap_cons, hs, hstg] at ih ⊢; exact ih
      | some s => simp [staging_tables, List.filterMap_cons, hs, hstg] at ih ⊢; omega
    · simp [staging_tables, List.filterMap_cons, hs] at ih ⊢
      exact ih

end ImportCsv

/-- C5: failure isolation of the result-collection and merge phase.  The
merge phase receives exactly the staging sinks of the successfully loaded
units; with every individual merge succeeding, the total merged row count
is the sum of the successful units' staging rows (each failed unit
contributing zero merged rows); every failed unit's source file is
reported in the failed list of the final summary; and a failed unit in
any position leaves the other units' staging sinks, merge input, merge
result, and failure report untouched — the run behaves exactly like the
run without the failed unit plus the failure record. -/
theorem c5_failure_isolation (rowsOf : String → List Nat)
    (results pre post : List ImportCsv.LoadRes) (r : ImportCsv.LoadRes)
    (tgt : List Nat) :
    (∀ s : String, s ∈ ImportCsv.staging_tables results ↔
      ∃ x ∈ results, x.success = true ∧ x.staging = some s)
    ∧ ((ImportCsv.main_merge (fun _ => true) rowsOf tgt results).2.1 =
        (results.map (fun x =>
          if x.success then x.staging.elim 0 (fun s => (rowsOf s).length) else 0)).sum)
    ∧ (∀ x ∈ results, x.success = false → x.csvFile ∈ ImportCsv.failed_files results)
    ∧ (r.success = false →
        (ImportCsv.staging_tables (pre ++ r :: post) =
          ImportCsv.staging_tables pre ++ ImportCsv.staging_tables post)
        ∧ (∀ mergeOk : String → Bool,
            ImportCsv.main_merge mergeOk rowsOf tgt (pre ++ r :: post) =
              ImportCsv.main_merge mergeOk rowsOf tgt (pre ++ post))
        ∧ (ImportCsv.failed_files (pre ++ r :: post) =
            ImportCsv.failed_files pre ++ r.csvFile :: ImportCsv.failed_files post)) := by
  refine ⟨?_, ?_, ?_, ?_⟩
  · intro s
    simp only [ImportCsv.staging_tables, List.mem_filterMap]
    refine exists_congr fun x => and_congr_right fun _ => ?_
    by_cases hs : x.success <;> simp [hs]
  · rw [ImportCsv.main_merge, ImportCsv.merge_staging_tables_eq]
    simp only [List.filter_true]
    exact ImportCsv.staging_tables_sum _ _
  · intro x hx hxf
    simp only [ImportCsv.failed_files, List.mem_map, List.mem_filter]
    exact ⟨x, ⟨hx, by simp [hxf]⟩, rfl⟩
  · intro hr
    have hstg : ImportCsv.staging_tables (pre ++ r :: post) =
        ImportCsv.staging_tables pre ++ ImportCsv.staging_tables post := by
      simp [ImportCsv.staging_tables, List.filterMap_append, List.filterMap_cons, hr]
    refine ⟨hstg, ?_, ?_⟩
    · intro mergeOk
      have h2 : ImportCsv.staging_tables (pre ++ post) =
          ImportCsv.staging_tables pre ++ ImportCsv.staging_tables post := by
        simp [ImportCsv.staging_tables, List.filterMap_append]
      rw [ImportCsv.main_merge, ImportCsv.main_merge, hstg, h2]
    · simp [ImportCsv.failed_files, List.filter_append, List.filter_cons, hr]

/-- C5 witness: the spec's scenario — three units, the middle one failed
(timeout, zero rows) — the merge input splits around the failed unit and
its source file is reported failed. -/
theorem c5_failure_isolation_witness :
    (ImportCsv.staging_tables
        ([⟨0, true, 2, "f1.csv", some "T_STG00"⟩] ++
          ⟨1, false, 0, "f2.csv", some "T_STG01"⟩ ::
          [⟨2, true, 1, "f3.csv", some "T_STG02"⟩]) =
      ImportCsv.staging_tables [⟨0, true, 2, "f1.csv", some "T_STG00"⟩] ++
        ImportCsv.staging_tables [⟨2, true, 1, "f3.csv", some "T_STG02"⟩])
    ∧ "f2.csv" ∈ ImportCsv.failed_files
        ([⟨0, true, 2, "f1.csv", some "T_STG00"⟩] ++
          ⟨1, false, 0, "f2.csv", some "T_STG01"⟩ ::
          [⟨2, true, 1, "f3.csv", some "T_STG02"⟩]) := by
  have h := c5_failure_isolation (fun s => if s == "T_STG00" then [1, 2] else [4])
    ([⟨0, true, 2, "f1.csv", some "T_STG00"⟩] ++
      ⟨1, false, 0, "f2.csv", some "T_STG01"⟩ ::
      [⟨2, true, 1, "f3.csv", some "T_STG02"⟩])
    [⟨0, true, 2, "f1.csv", some "T_STG00"⟩]
    [⟨2, true, 1, "f3.csv", some "T_STG02"⟩]
    ⟨1, false, 0, "f2.csv", some "T_STG01"⟩ []
  exact ⟨(h.2.2.2 rfl).1,
    h.2.2.1 ⟨1, false, 0, "f2.csv", some "T_STG01"⟩ (by decide) rfl⟩

/-- C6: a bulk-load invocation is classified a success iff the loader
process returned code 0 or 2; any other return code, a timeout, or an
exception classifies the unit as failed, with a timeout or exception
additionally yielding zero loaded rows; the rows-loaded count of a
completed invocation is exactly the number the worker parses from the
loader's log (`Rows successfully loaded`), defaulting to 0 when the log
yields no match.  This holds for both `run_sqlldr` (dbtodb.py) and
`load_single_file` (import_csv_24_processes.py). -/
theorem c6_load_classification :
    (∀ (rc : Int) (logRows : Option Nat),
      ((DbToDb.run_sqlldr (.completed rc logRows)).1 = true ↔ rc = 0 ∨ rc = 2)
      ∧ (DbToDb.run_sqlldr (.completed rc logRows)).2 = logRows.getD 0)
    ∧ DbToDb.run_sqlldr .timedOut = (false, 0)
    ∧ DbToDb.run_sqlldr .raised = (false, 0)
    ∧ (∀ (stg : String) (rc : Int) (logRows : Option Nat) (idx : Nat) (csv : String),
        ((ImportCsv.load_single_file (some stg) (.completed rc logRows) idx csv).success = true
          ↔ rc = 0 ∨ rc = 2)
        ∧ (ImportCsv.load_single_file (some stg) (.completed rc logRows) idx csv).rows =
            logRows.getD 0)
    ∧ (∀ (stg : String) (idx : Nat) (csv : String),
        (ImportCsv.load_single_file (some stg) .timedOut idx csv).success = false
        ∧ (ImportCsv.load_single_file (some stg) .timedOut idx csv).rows = 0
        ∧ (ImportCsv.load_single_file (some stg) .raised idx csv).success = false
        ∧ (ImportCsv.load_single_file (some stg) .raised idx csv).rows = 0) := by
  refine ⟨fun rc logRows => ⟨?_, rfl⟩, rfl, rfl,
    fun stg rc logRows idx csv => ⟨?_, rfl⟩,
    fun stg idx csv => ⟨rfl, rfl, rfl, rfl⟩⟩ <;>
    simp [DbToDb.run_sqlldr, ImportCsv.load_single_file]

/-- C7 counterexample: two successfully loaded units; the merge of the
second unit's sink fails.  The claim says a sink released after a failed
merge (`success=false`) is preserved for inspection, but `main` passes
the full successful-load sink list to `drop_staging_tables`, so the
merge-failed sink `T_STG01` is dropped even though none of its rows
reached the target (the committed target holds only `T_STG00`'s rows). -/
theorem c7_counterexample :
    ((fun s => s != "T_STG01") : String → Bool) "T_STG01" = false
    ∧ (ImportCsv.main_merge (fun s => s != "T_STG01")
        (fun s => if s == "T_STG00" then [1, 2] else [3]) []
        [⟨0, true, 2, "a.csv", some "T_STG00"⟩,
         ⟨1, true, 1, "b.csv", some "T_STG01"⟩]).2.2 = [1, 2]
    ∧ "T_STG01" ∈ ImportCsv.main_dropped_tables
        [⟨0, true, 2, "a.csv", some "T_STG00"⟩,
         ⟨1, true, 1, "b.csv", some "T_STG01"⟩] := by
  refine ⟨rfl, ?_, by decide⟩
  rfl

/-- C7 (amended): the cleanup takes no success flag.  After the merge
phase, `main` drops precisely the staging sinks of the successfully
loaded units — including any sink whose own merge failed — while a sink
belonging only to load-failed units is never in the drop list and so is
preserved; dropping removes exactly the listed tables from the database
and leaves every other table untouched. -/
theorem c7_release_amended (results : List ImportCsv.LoadRes) (s : String)
    (db : ImportCsv.Db Nat) (e : String × List Nat) :
    (s ∈ ImportCsv.main_dropped_tables results ↔
      ∃ r ∈ results, r.success = true ∧ r.staging = some s)
    ∧ (e ∈ ImportCsv.drop_staging_tables (ImportCsv.main_dropped_tables results) db ↔
        e ∈ db ∧ e.1 ∉ ImportCsv.main_dropped_tables results) := by
  constructor
  · simp only [ImportCsv.main_dropped_tables, ImportCsv.staging_tables, List.mem_filterMap]
    refine exists_congr fun x => and_congr_right fun _ => ?_
    by_cases hs : x.success <;> simp [hs]
  · simp [ImportCsv.drop_staging_tables, List.mem_filter]

/-- C7 witness: with one load-failed and one load-succeeded unit, the
succeeded unit's sink is in the drop list and the failed unit's sink is
not. -/
theorem c7_release_amended_witness :
    ("T_STG00" ∈ ImportCsv.main_dropped_tables
        [⟨0, true, 2, "a.csv", some "T_STG00"⟩,
         ⟨1, false, 0, "b.csv", some "T_STG01"⟩]
      ↔ ∃ r ∈ [(⟨0, true, 2, "a.csv", some "T_STG00"⟩ : ImportCsv.LoadRes),
               ⟨1, false, 0, "b.csv", some "T_STG01"⟩],
          r.success = true ∧ r.staging = some "T_STG00")
    ∧ (("T_STG01", [7]) ∈ ImportCsv.drop_staging_tables
          (ImportCsv.main_dropped_tables
            [⟨0, true, 2, "a.csv", some "T_STG00"⟩,
             ⟨1, false, 0, "b.csv", some "T_STG01"⟩])
          [("T_STG00", [1, 2]), ("T_STG01", [7])]
        ↔ ("T_STG01", [7]) ∈ [(("T_STG00" : String), [(1 : Nat), 2]), ("T_STG01", [7])]
          ∧ "T_STG01" ∉ ImportCsv.main_dropped_tables
              [⟨0, true, 2, "a.csv", some "T_STG00"⟩,
               ⟨1, false, 0, "b.csv", some "T_STG01"⟩]) :=
  ⟨(c7_release_amended
      [⟨0, true, 2, "a.csv", some "T_STG00"⟩, ⟨1, false, 0, "b.csv", some "T_STG01"⟩]
      "T_STG00" [("T_STG00", [1, 2]), ("T_STG01", [7])] (("T_STG01", [7]))).1,
   (c7_release_amended
      [⟨0, true, 2, "a.csv", some "T_STG00"⟩, ⟨1, false, 0, "b.csv", some "T_STG01"⟩]
      "T_STG01" [("T_STG00", [1, 2]), ("T_STG01", [7])] (("T_STG01", [7]))).2⟩

theorem charOfNat_digit_toNat : ∀ m : Nat, m < 10 → (Char.ofNat (48 + m)).toNat = 48 + m := by
  decide

theorem decCharsRev_foldr :
    ∀ n : Nat, (decCharsRev n).foldr (fun c acc => acc * 10 + (c.toNat - 48)) 0 = n := by
  intro n
  induction n using Nat.strong_induction_on with
  | _ n ih =>
    match n with
    | 0 => rw [decCharsRev]; rfl
    | m + 1 =>
      rw [decCharsRev]
      simp only [List.foldr_cons]
      rw [ih ((m + 1) / 10) (by omega), charOfNat_digit_toNat _ (by omega)]
      omega

theorem parseNum_decCharsRev (n : Nat) : parseNum (decCharsRev n).reverse = n := by
  rw [parseNum, List.foldl_reverse]
  exact decCharsRev_foldr n

theorem parseNum_pyDecRepr (n : Nat) : parseNum (pyDecRepr n) = n := by
  rw [pyDecRepr]
  split
  · rename_i h0
    subst h0
    rfl
  · exact parseNum_decCharsRev n

theorem parseNum_cons_zero (l : List Char) : parseNum ('0' :: l) = parseNum l := by
  have h : (0 : Nat) * 10 + ('0'.toNat - 48) = 0 := by decide
  rw [parseNum, parseNum, List.foldl_cons, h]

theorem parseNum_pyFormat02d (n : Nat) : parseNum (pyFormat02d n) = n := by
  rw [pyFormat02d]
  split
  · rw [parseNum_cons_zero, parseNum_pyDecRepr]
  · rw [parseNum_pyDecRepr]

theorem staging_name_inj (table : String) {i j : Nat}
    (h : ImportCsv.staging_name table i = ImportCsv.staging_name table j) : i = j := by
  have h2 : pyFormat02d i = pyFormat02d j := by
    have hd := congrArg String.data h
    simpa [ImportCsv.staging_name, String.data_append] using hd
  have := congrArg parseNum h2
  rwa [parseNum_pyFormat02d, parseNum_pyFormat02d] at this

/-- C8: staging allocation is deterministic and idempotent.  The sink
name is a pure function of the table and unit id and distinct unit ids
give distinct names (no collision between concurrently running units);
allocation first drops any stale sink of that name and then creates a
fresh empty one, so afterwards exactly one (empty) sink of the derived
name exists — a stale sink from an aborted run is replaced, not
duplicated — every other table is untouched, and re-running the
allocation for the same unit yields the identical database state and
name. -/
theorem c8_staging_idempotent (table : String) (i j : Nat) (db : ImportCsv.Db Nat) :
    ((ImportCsv.create_staging_table table i db).2 = ImportCsv.staging_name table i)
    ∧ (i ≠ j → ImportCsv.staging_name table i ≠ ImportCsv.staging_name table j)
    ∧ ((ImportCsv.create_staging_table table i db).1.filter
        (fun e => e.1 == ImportCsv.staging_name table i) =
      [(ImportCsv.staging_name table i, ([] : List Nat))])
    ∧ ((ImportCsv.create_staging_table table i db).1.filter
        (fun e => e.1 != ImportCsv.staging_name table i) =
      db.filter (fun e => e.1 != ImportCsv.staging_name table i))
    ∧ (ImportCsv.create_staging_table table i
        (ImportCsv.create_staging_table table i db).1 =
      ImportCsv.create_staging_table table i db) := by
  refine ⟨rfl, fun hij h => hij (staging_name_inj table h), ?_, ?_, ?_⟩
  · rw [ImportCsv.create_staging_table]
    simp [List.filter_append, List.filter_filter]
  · rw [ImportCsv.create_staging_table]
    simp [List.filter_append, List.filter_filter]
  · rw [ImportCsv.create_staging_table, ImportCsv.create_staging_table]
    simp [List.filter_append, List.filter_filter]

/-- C8 witness: table `EDS`, unit 0, against a database holding a stale
`EDS_STG00` with leftover rows — names for units 0 and 1 differ, and
after allocation the only sink named `EDS_STG00` is the fresh empty
one. -/
theorem c8_staging_idempotent_witness :
    ImportCsv.staging_name "EDS" 0 ≠ ImportCsv.staging_name "EDS" 1
    ∧ (ImportCsv.create_staging_table "EDS" 0 [("EDS_STG00", [42])]).1.filter
        (fun e => e.1 == ImportCsv.staging_name "EDS" 0) =
      [(ImportCsv.staging_name "EDS" 0, ([] : List Nat))] :=
  ⟨(c8_staging_idempotent "EDS" 0 1 [("EDS_STG00", [42])]).2.1 (by decide),
   (c8_staging_idempotent "EDS" 0 1 [("EDS_STG00", [42])]).2.2.1⟩

theorem digit_ne_dot {c : Char} (hc : c.isDigit = true) : c ≠ '.' := by
  intro he
  subst he
  exact absurd hc (by decide)

theorem digit_ne_dash {c : Char} (hc : c.isDigit = true) : c ≠ '-' := by
  intro he
  subst he
  exact absurd hc (by decide)

theorem filter_digits_id (q : Char → Bool) (hq : ∀ c, c.isDigit = true → q c = true) :
    ∀ l : List Char, (∀ c ∈ l, c.isDigit = true) → l.filter q = l := by
  intro l hl
  rw [List.filter_eq_self]
  intro a ha
  exact hq a (hl a ha)

theorem specBody_digits (body : List Char) (h : specNumericBody body = true) :
    ((body.filter (fun d => d ≠ '.')).filter (fun d => d ≠ '-')) ≠ []
    ∧ ((body.filter (fun d => d ≠ '.')).filter (fun d => d ≠ '-')).all Char.isDigit = true := by
  have hq1 : ∀ c : Char, c.isDigit = true → (fun d => decide (d ≠ '.')) c = true := by
    intro c hc
    simpa using digit_ne_dot hc
  have hq2 : ∀ c : Char, c.isDigit = true → (fun d => decide (d ≠ '-')) c = true := by
    intro c hc
    simpa using digit_ne_dash hc
  have hsplit := List.takeWhile_append_dropWhile Char.isDigit body
  have hd1 : ∀ c ∈ body.takeWhile Char.isDigit, c.isDigit = true := by
    intro c hc
    exact List.mem_takeWhile_imp hc
  rw [specNumericBody] at h
  revert h
  split
  · rename_i hdrop
    intro h
    rw [hdrop, List.append_nil] at hsplit
    have hall : ∀ c ∈ body, c.isDigit = true := by
      intro c hc
      rw [← hsplit] at hc
      exact hd1 c hc
    rw [filter_digits_id _ hq1 body hall, filter_digits_id _ hq2 body hall]
    refine ⟨?_, List.all_eq_true.mpr fun c hc => hall c hc⟩
    intro hnil
    rw [hnil] at h
    simp at h
  · rename_i d2 hdrop
    intro h
    rw [Bool.and_eq_true, Bool.or_eq_true] at h
    obtain ⟨hne, hd2⟩ := h
    rw [hdrop] at hsplit
    have hd2' : ∀ c ∈ d2, c.isDigit = true := by
      intro c hc
      exact List.all_eq_true.mp hd2 c hc
    set t := List.takeWhile Char.isDigit body with ht
    have h1 : body.filter (fun d => d ≠ '.') = t ++ d2 := by
      rw [← hsplit, List.filter_append, filter_digits_id _ hq1 t hd1,
        List.filter_cons_of_neg (by simp), filter_digits_id _ hq1 d2 hd2']
    have key : (body.filter (fun d => d ≠ '.')).filter (fun d => d ≠ '-') = t ++ d2 := by
      rw [h1, List.filter_append, filter_digits_id _ hq2 t hd1,
        filter_digits_id _ hq2 d2 hd2']
    rw [key]
    constructor
    · intro hnil
      rcases List.append_eq_nil.mp hnil with ⟨htn, hdn⟩
      rw [htn, hdn] at hne
      simp at hne
    · rw [List.all_eq_true]
      intro c hc
      rcases List.mem_append.mp hc with hc1 | hc2
      · exact hd1 c hc1
      · exact hd2' c hc2
  · intro h
    simp at h

theorem specNumeric_pyIsdigit (p : String) (h : specNumericLiteral p = true) :
    pyIsdigit (pyRemoveChar '-' (pyRemoveChar '.' p)) = true := by
  rw [specNumericLiteral] at h
  have key : ∃ body : List Char,
      specNumericBody body = true ∧
      (p.data.filter (fun d => d ≠ '.')).filter (fun d => d ≠ '-') =
        (body.filter (fun d => d ≠ '.')).filter (fun d => d ≠ '-') := by
    by_cases hh : p.data.head? = some '-'
    · rw [if_pos hh] at h
      refine ⟨p.data.tail, h, ?_⟩
      have hcons : p.data = '-' :: p.data.tail := by
        cases hd : p.data with
        | nil => rw [hd] at hh; simp at hh
        | cons c cs =>
          rw [hd] at hh
          simp only [List.head?_cons, Option.some.injEq] at hh
          rw [hh]
          rfl
      conv_lhs => rw [hcons]
      rw [List.filter_cons_of_pos (by decide), List.filter_cons_of_neg (by decide)]
    · rw [if_neg hh] at h
      exact ⟨p.data, h, rfl⟩
  obtain ⟨body, hb, heq⟩ := key
  obtain ⟨hne, hall⟩ := specBody_digits body hb
  rw [pyIsdigit, pyRemoveChar, pyRemoveChar]
  dsimp only
  rw [heq, Bool.and_eq_true]
  refine ⟨?_, hall⟩
  simpa [List.isEmpty_iff] using hne

/-- C9 counterexample: for the first line `1.2.3,COL_B` the first field
`1.2.3` is not parseable as a number, so the claim requires the line to
be classified as a header; but the detector deletes the dots, sees the
digit string `123`, and reports no header. -/
theorem c9_counterexample :
    ImportCsv.get_csv_header "1.2.3,COL_B" = none
    ∧ specNumericLiteral "1.2.3" = false := by
  constructor <;> decide

/-- C9 (amended): the first line is classified as a header — and its
comma-split fields returned as the column list — if and only if its first
field, after deleting every `.` and `-` character, is not a nonempty
digit string; otherwise no header is reported.  Every first field that is
genuinely parseable as a number is classified as non-header, but the
converse of the claim fails: the deletion-based test also treats
malformed fields such as `1.2.3` as numbers. -/
theorem c9_header_amended (line : String) (p : String) (rest : List String)
    (hsplit : pySplitChar ',' (pyStrip line) = p :: rest) :
    (ImportCsv.get_csv_header line = some (p :: rest) ↔
      pyIsdigit (pyRemoveChar '-' (pyRemoveChar '.' p)) = false)
    ∧ (ImportCsv.get_csv_header line = none ↔
      pyIsdigit (pyRemoveChar '-' (pyRemoveChar '.' p)) = true)
    ∧ (specNumericLiteral p = true → ImportCsv.get_csv_header line = none) := by
  have hdef : ImportCsv.get_csv_header line =
      if pyIsdigit (pyRemoveChar '-' (pyRemoveChar '.' p)) then none
      else some (p :: rest) := by
    simp only [ImportCsv.get_csv_header, hsplit]
  refine ⟨?_, ?_, fun hspec => ?_⟩
  · rw [hdef]
    by_cases hb : pyIsdigit (pyRemoveChar '-' (pyRemoveChar '.' p)) <;> simp [hb]
  · rw [hdef]
    by_cases hb : pyIsdigit (pyRemoveChar '-' (pyRemoveChar '.' p)) <;> simp [hb]
  · rw [hdef, if_pos (specNumeric_pyIsdigit p hspec)]

/-- C9 witness: the header line `COL_A,COL_B` — a header is detected, its
fields are returned, and the digit test on `COL_A` is negative. -/
theorem c9_header_amended_witness :
    (ImportCsv.get_csv_header "COL_A,COL_B" = some ("COL_A" :: ["COL_B"]) ↔
      pyIsdigit (pyRemoveChar '-' (pyRemoveChar '.' "COL_A")) = false)
    ∧ (ImportCsv.get_csv_header "COL_A,COL_B" = none ↔
      pyIsdigit (pyRemoveChar '-' (pyRemoveChar '.' "COL_A")) = true)
    ∧ (specNumericLiteral "COL_A" = true →
        ImportCsv.get_csv_header "COL_A,COL_B" = none) :=
  c9_header_amended "COL_A,COL_B" "COL_A" ["COL_B"] (by decide)

/-- C10: when `main` scans the input directory, a file whose basename
lowercased contains `_chunk`, or contains `_STG` verbatim, is silently
excluded: it never appears in the list of CSV files to load, so a genuine
data file with such a name is never loaded.  A file is in the load list
iff it was found and is not excluded, and the load list is processed in
sorted filename order. -/
theorem c10_file_filter (basenames : List String) (f : String) :
    (ImportCsv.excluded_file f = true → f ∉ ImportCsv.csv_files_to_load basenames)
    ∧ (f ∈ ImportCsv.csv_files_to_load basenames ↔
        f ∈ basenames ∧ ImportCsv.excluded_file f = false)
    ∧ List.Sorted (· ≤ ·) (ImportCsv.csv_files_to_load basenames) := by
  have hmem : f ∈ ImportCsv.csv_files_to_load basenames ↔
      f ∈ basenames ∧ ImportCsv.excluded_file f = false := by
    rw [ImportCsv.csv_files_to_load, List.mem_mergeSort, List.mem_filter,
      Bool.not_eq_true']
  refine ⟨fun hex hin => ?_, hmem, ?_⟩
  · have hfalse := (hmem.mp hin).2
    rw [hex] at hfalse
    exact absurd hfalse (by simp)
  · rw [ImportCsv.csv_files_to_load]
    have hs : ((basenames.filter (fun x => !ImportCsv.excluded_file x)).mergeSort
        (fun a b : String => decide (a ≤ b))).Pairwise
          (fun a b : String => decide (a ≤ b) = true) :=
      List.sorted_mergeSort
        (fun a b c hab hbc => by
          simp only [decide_eq_true_eq] at *
          exact le_trans hab hbc)
        (fun a b => by
          simpa [Bool.or_eq_true, decide_eq_true_eq] using le_total a b)
        (basenames.filter (fun x => !ImportCsv.excluded_file x))
    exact hs.imp fun h => of_decide_eq_true h

/-- C10 witness: `EDS_chunk00.csv` is excluded and absent from the load
list; `EDS_001.csv` is loaded iff present and not excluded. -/
theorem c10_file_filter_witness :
    ImportCsv.excluded_file "EDS_chunk00.csv" = true
    ∧ "EDS_chunk00.csv" ∉ ImportCsv.csv_files_to_load
        ["EDS_002.csv", "EDS_chunk00.csv", "EDS_001.csv"]
    ∧ ("EDS_001.csv" ∈ ImportCsv.csv_files_to_load
          ["EDS_002.csv", "EDS_chunk00.csv", "EDS_001.csv"] ↔
        "EDS_001.csv" ∈ ["EDS_002.csv", "EDS_chunk00.csv", "EDS_001.csv"]
          ∧ ImportCsv.excluded_file "EDS_001.csv" = false) :=
  ⟨by decide,
   (c10_file_filter ["EDS_002.csv", "EDS_chunk00.csv", "EDS_001.csv"]
      "EDS_chunk00.csv").1 (by decide),
   (c10_file_filter ["EDS_002.csv", "EDS_chunk00.csv", "EDS_001.csv"]
      "EDS_001.csv").2.1⟩
